import Mathlib

/-!
Shallow embedding of the ddns-gandi reconciler (src/src/main.rs).

The program discovers the host's public IPv4/IPv6 addresses from ipify,
then for each configured record name and each address family with a
discovered address it reads the Gandi LiveDNS record and, when the record
is non-empty, PUTs a replacement rrset holding the discovered address.

Network responses are modelled as explicit data (`IpResponse`,
`ReadResponse`, `WriteResponse`); an `Env` maps each (record name, dns
type) to the responses the two Gandi endpoints would give.  The run is
embedded as a pure function returning the trace of observable calls and
log events together with the final outcome: `Except.ok n` when the run
completes reporting `n` changed records, `Except.error ()` when a write
transport failure propagates out of `main` via `?`.
-/

namespace DdnsGandi

/-- `REST_URL` constant of main.rs. -/
def REST_URL : String := "https://api.gandi.net/v5/livedns/"

/-- `enum IpVersion { V4, V6 }`. -/
inductive IpVersion where
  | V4
  | V6
deriving DecidableEq

/-- The host-variant infix chosen in `get_public_ip` (`""` or `"6"`). -/
def ipVariant : IpVersion → String
  | IpVersion.V4 => ""
  | IpVersion.V6 => "6"

/-- The ipify discovery URL built by `get_public_ip`. -/
def ipifyUrl (v : IpVersion) : String :=
  "https://api" ++ ipVariant v ++ ".ipify.org?format=json"

/-- What the HTTP layer hands `get_public_ip`: whether the GET itself
succeeded, whether the status was 2xx, whether the body parsed as JSON,
and the result of `json["ip"].as_str()` (`none` when the field is absent
or not a string). -/
structure IpResponse where
  transportOk : Bool
  statusSuccess : Bool
  jsonOk : Bool
  ipField : Option String
deriving DecidableEq

/-- `get_public_ip` (main.rs lines 22-45): transport failure or JSON
failure short-circuits to `None` via `.ok()?`; a non-2xx status logs and
returns `None`; otherwise the `ip` field with `unwrap_or("")`. -/
def get_public_ip (r : IpResponse) : Option String :=
  if r.transportOk then
    if r.statusSuccess then
      if r.jsonOk then some (r.ipField.getD "")
      else none
    else none
  else none

/-- The record endpoint URL built by the format string
REST_URL/domains/domain/records/name/dnsType, shared verbatim by
`get_gandi_record` and `update_gandi_record`. -/
def gandiRecordUrl (domain name dnsType : String) : String :=
  REST_URL ++ "domains/" ++ domain ++ "/records/" ++ name ++ "/" ++ dnsType

/-- What the HTTP layer hands `get_gandi_record`: transport and JSON
outcomes plus `json["rrset_values"].as_array()` (`none` when absent or not
an array), each element being its `.as_str()`. -/
structure ReadResponse where
  transportOk : Bool
  statusSuccess : Bool
  jsonOk : Bool
  rrsetValues : Option (List (Option String))
deriving DecidableEq

/-- `get_gandi_record` (main.rs lines 53-89): `None` on transport/JSON
failure or non-2xx status; otherwise the `rrset_values` array with
`unwrap_or` defaults (missing array becomes `[]`, non-string element
becomes `""`). -/
def get_gandi_record (r : ReadResponse) : Option (List String) :=
  if r.transportOk then
    if r.statusSuccess then
      if r.jsonOk then
        some ((r.rrsetValues.getD []).map (fun v => v.getD ""))
      else none
    else none
  else none

/-- What the HTTP layer hands `update_gandi_record`: whether the PUT
completed at transport level, and the HTTP status code it returned. -/
structure WriteResponse where
  transportOk : Bool
  status : Nat
deriving DecidableEq

/-- `update_gandi_record` (main.rs lines 91-122): a transport failure
propagates via `?` (`Except.error ()`); otherwise `changed` is
`status == 201` and is returned as `Ok(changed)`. -/
def update_gandi_record (r : WriteResponse) : Except Unit Bool :=
  if r.transportOk then Except.ok (r.status == 201)
  else Except.error ()

/-- One PUT as issued by `update_gandi_record`: its URL and the JSON
payload: rrset_ttl 1800 and rrset_values holding only new_ip. -/
structure WriteCall where
  url : String
  name : String
  dnsType : String
  rrset_ttl : Nat
  rrset_values : List String
deriving DecidableEq

/-- Observable events of a run: the GETs and PUTs issued against the
record endpoint, and the warnings `main` / `update_gandi_record` log. -/
inductive Event where
  | readCall (url name dnsType : String)
  | warnEmpty (name dnsType : String)
  | warnMissing (name dnsType : String)
  | writeCall (c : WriteCall) (resp : WriteResponse)
  | warnStatus (name dnsType : String) (status : Nat)
deriving DecidableEq

/-- The remote world a run talks to: the read and write responses for
each (record name, dns type) pair.  The environment is a function of the
pair only: the remote state does not change during one run. -/
structure Env where
  readResp : String → String → ReadResponse
  writeResp : String → String → WriteResponse

/-- The body of `main`'s inner loop (main.rs lines 172-194) for one
(record, family) pair: skipped entirely when no address was discovered;
otherwise read the record, warn and skip when it is missing (`None`) or
empty, and otherwise PUT the discovered address, incrementing the counter
exactly when the status was 201 and warning otherwise.  Returns the
events of the pair and `Except.ok` increment or the propagated write
transport error. -/
def processFam (domain name : String) (ipOpt : Option String)
    (dnsType : String) (env : Env) : List Event × Except Unit Nat :=
  match ipOpt with
  | none => ([], Except.ok 0)
  | some ip =>
    let url := gandiRecordUrl domain name dnsType
    match get_gandi_record (env.readResp name dnsType) with
    | none =>
      ([Event.readCall url name dnsType, Event.warnMissing name dnsType],
       Except.ok 0)
    | some vals =>
      if vals.isEmpty then
        ([Event.readCall url name dnsType, Event.warnEmpty name dnsType],
         Except.ok 0)
      else
        let wr := env.writeResp name dnsType
        let wc : WriteCall := ⟨url, name, dnsType, 1800, [ip]⟩
        match update_gandi_record wr with
        | Except.error e =>
          ([Event.readCall url name dnsType, Event.writeCall wc wr],
           Except.error e)
        | Except.ok changed =>
          if changed then
            ([Event.readCall url name dnsType, Event.writeCall wc wr],
             Except.ok 1)
          else
            ([Event.readCall url name dnsType, Event.writeCall wc wr,
              Event.warnStatus name dnsType wr.status],
             Except.ok 0)

/-- One record: `ip_configs = [(ipv4, "A"), (ipv6, "AAAA")]` processed in
order, aborting after the first propagated error. -/
def processRecord (domain name : String) (ip4 ip6 : Option String)
    (env : Env) : List Event × Except Unit Nat :=
  let p1 := processFam domain name ip4 "A" env
  match p1.2 with
  | Except.error e => (p1.1, Except.error e)
  | Except.ok n1 =>
    let p2 := processFam domain name ip6 "AAAA" env
    match p2.2 with
    | Except.error e => (p1.1 ++ p2.1, Except.error e)
    | Except.ok n2 => (p1.1 ++ p2.1, Except.ok (n1 + n2))

/-- The record loop of `main` (main.rs lines 168-195): records in
configuration order, `n_changed` accumulated, any propagated error ends
the run at once. -/
def runRecords (domain : String) (records : List String)
    (ip4 ip6 : Option String) (env : Env) : List Event × Except Unit Nat :=
  match records with
  | [] => ([], Except.ok 0)
  | r :: rest =>
    let p1 := processRecord domain r ip4 ip6 env
    match p1.2 with
    | Except.error e => (p1.1, Except.error e)
    | Except.ok n1 =>
      let p2 := runRecords domain rest ip4 ip6 env
      match p2.2 with
      | Except.error e => (p1.1 ++ p2.1, Except.error e)
      | Except.ok n2 => (p1.1 ++ p2.1, Except.ok (n1 + n2))

/-- The whole reconciliation after configuration parsing: discover both
families (`get_public_ips`), then run the record loop. -/
def runMain (domain : String) (records : List String)
    (r4 r6 : IpResponse) (env : Env) : List Event × Except Unit Nat :=
  runRecords domain records (get_public_ip r4) (get_public_ip r6) env

/-- Is this event a PUT whose response reported `changed` (status 201)?
These are exactly the writes `main` counts in `n_changed`. -/
def isChangedWrite : Event → Bool
  | Event.writeCall _ r => r.transportOk && r.status == 201
  | _ => false

/-- Is this event a PUT (a write call), successful or not? -/
def isWrite : Event → Bool
  | Event.writeCall _ _ => true
  | _ => false

/-- Is this event a PUT for the given (record name, dns type)? -/
def isWriteFor (name dnsType : String) : Event → Bool
  | Event.writeCall c _ => c.name == name && c.dnsType == dnsType
  | _ => false

/-- The dns type an event concerns ("A" or "AAAA"). -/
def eventDnsType : Event → String
  | Event.readCall _ _ t => t
  | Event.warnEmpty _ t => t
  | Event.warnMissing _ t => t
  | Event.writeCall c _ => c.dnsType
  | Event.warnStatus _ t _ => t

/-- A read response whose `rrset_values` holds exactly the given strings:
what the Gandi read endpoint returns for a record that was just replaced
with those values. -/
def mkReadResponse (vs : List String) : ReadResponse :=
  ReadResponse.mk true true true (some (vs.map some))

/-- How a write that the provider acknowledged with 201 changes the
remote state: the record's `rrset_values` become the written payload.
Other events leave the remote state unchanged. -/
def applyEvent (env : Env) : Event → Env
  | Event.writeCall c r =>
    if r.transportOk && r.status == 201 then
      Env.mk
        (fun n t =>
          if n = c.name ∧ t = c.dnsType then mkReadResponse c.rrset_values
          else env.readResp n t)
        env.writeResp
    else env
  | _ => env

/-- The remote state after a run's events have been committed. -/
def applyWrites (env : Env) : List Event → Env
  | [] => env
  | e :: es => applyWrites (applyEvent env e) es

/-- How `main` classifies a read response: 0 = `None` (failed read),
1 = empty value list, 2 = non-empty value list.  The run's control flow
depends on a read response only through this classification. -/
def readClass (r : ReadResponse) : Nat :=
  match get_gandi_record r with
  | none => 0
  | some [] => 1
  | some (_ :: _) => 2

/-- Environment where every record currently holds `1.2.3.4` and every
PUT is acknowledged with 201. -/
def envEq : Env :=
  Env.mk (fun _ _ => ReadResponse.mk true true true (some [some "1.2.3.4"]))
         (fun _ _ => WriteResponse.mk true 201)

/-- Environment where reading record `a` fails with a non-2xx status
while record `b` reads as `["9.9.9.9"]` and every PUT returns 201. -/
def envC3 : Env :=
  Env.mk
    (fun n _ =>
      if n = "a" then ReadResponse.mk true false true none
      else ReadResponse.mk true true true (some [some "9.9.9.9"]))
    (fun _ _ => WriteResponse.mk true 201)

/-- Environment where every record reads successfully as the empty value
list. -/
def envEmpty : Env :=
  Env.mk (fun _ _ => ReadResponse.mk true true true (some []))
         (fun _ _ => WriteResponse.mk true 201)

/-- Environment where every record reads as `["9.9.9.9"]` and every PUT
fails at transport level. -/
def envWfail : Env :=
  Env.mk (fun _ _ => ReadResponse.mk true true true (some [some "9.9.9.9"]))
         (fun _ _ => WriteResponse.mk false 0)

/-! ### Characterization of one (record, family) step -/

theorem processFam_none (d n t : String) (env : Env) :
    processFam d n none t env = ([], Except.ok 0) := rfl

theorem processFam_missing (d n t ip : String) (env : Env)
    (h : get_gandi_record (env.readResp n t) = none) :
    processFam d n (some ip) t env =
      ([Event.readCall (gandiRecordUrl d n t) n t, Event.warnMissing n t],
       Except.ok 0) := by
  simp [processFam, h]

theorem processFam_empty (d n t ip : String) (env : Env)
    (h : get_gandi_record (env.readResp n t) = some []) :
    processFam d n (some ip) t env =
      ([Event.readCall (gandiRecordUrl d n t) n t, Event.warnEmpty n t],
       Except.ok 0) := by
  simp [processFam, h]

theorem processFam_write_fail (d n t ip v : String) (vs : List String)
    (env : Env)
    (h : get_gandi_record (env.readResp n t) = some (v :: vs))
    (hw : (env.writeResp n t).transportOk = false) :
    processFam d n (some ip) t env =
      ([Event.readCall (gandiRecordUrl d n t) n t,
        Event.writeCall
          (WriteCall.mk (gandiRecordUrl d n t) n t 1800 [ip])
          (env.writeResp n t)],
       Except.error ()) := by
  simp [processFam, h, update_gandi_record, hw]

theorem processFam_write_201 (d n t ip v : String) (vs : List String)
    (env : Env)
    (h : get_gandi_record (env.readResp n t) = some (v :: vs))
    (hw : (env.writeResp n t).transportOk = true)
    (hs : (env.writeResp n t).status = 201) :
    processFam d n (some ip) t env =
      ([Event.readCall (gandiRecordUrl d n t) n t,
        Event.writeCall
          (WriteCall.mk (gandiRecordUrl d n t) n t 1800 [ip])
          (env.writeResp n t)],
       Except.ok 1) := by
  simp [processFam, h, update_gandi_record, hw, hs]

theorem processFam_write_non201 (d n t ip v : String) (vs : List String)
    (env : Env)
    (h : get_gandi_record (env.readResp n t) = some (v :: vs))
    (hw : (env.writeResp n t).transportOk = true)
    (hs : (env.writeResp n t).status ≠ 201) :
    processFam d n (some ip) t env =
      ([Event.readCall (gandiRecordUrl d n t) n t,
        Event.writeCall
          (WriteCall.mk (gandiRecordUrl d n t) n t 1800 [ip])
          (env.writeResp n t),
        Event.warnStatus n t (env.writeResp n t).status],
       Except.ok 0) := by
  have hb : ((env.writeResp n t).status == 201) = false := by
    simpa using hs
  simp [processFam, h, update_gandi_record, hw, hb]

/-- Exhaustive case split for one processed (record, family) pair. -/
theorem processFam_cases (d n t ip : String) (env : Env) :
    (get_gandi_record (env.readResp n t) = none ∧
      processFam d n (some ip) t env =
        ([Event.readCall (gandiRecordUrl d n t) n t, Event.warnMissing n t],
         Except.ok 0)) ∨
    (get_gandi_record (env.readResp n t) = some [] ∧
      processFam d n (some ip) t env =
        ([Event.readCall (gandiRecordUrl d n t) n t, Event.warnEmpty n t],
         Except.ok 0)) ∨
    (∃ v vs, get_gandi_record (env.readResp n t) = some (v :: vs) ∧
      (env.writeResp n t).transportOk = false ∧
      processFam d n (some ip) t env =
        ([Event.readCall (gandiRecordUrl d n t) n t,
          Event.writeCall
            (WriteCall.mk (gandiRecordUrl d n t) n t 1800 [ip])
            (env.writeResp n t)],
         Except.error ())) ∨
    (∃ v vs, get_gandi_record (env.readResp n t) = some (v :: vs) ∧
      (env.writeResp n t).transportOk = true ∧
      (env.writeResp n t).status = 201 ∧
      processFam d n (some ip) t env =
        ([Event.readCall (gandiRecordUrl d n t) n t,
          Event.writeCall
            (WriteCall.mk (gandiRecordUrl d n t) n t 1800 [ip])
            (env.writeResp n t)],
         Except.ok 1)) ∨
    (∃ v vs, get_gandi_record (env.readResp n t) = some (v :: vs) ∧
      (env.writeResp n t).transportOk = true ∧
      (env.writeResp n t).status ≠ 201 ∧
      processFam d n (some ip) t env =
        ([Event.readCall (gandiRecordUrl d n t) n t,
          Event.writeCall
            (WriteCall.mk (gandiRecordUrl d n t) n t 1800 [ip])
            (env.writeResp n t),
          Event.warnStatus n t (env.writeResp n t).status],
         Except.ok 0)) := by
  rcases hg : get_gandi_record (env.readResp n t) with _ | vals
  · exact Or.inl ⟨rfl, processFam_missing d n t ip env hg⟩
  · cases vals with
    | nil => exact Or.inr (Or.inl ⟨rfl, processFam_empty d n t ip env hg⟩)
    | cons v vs =>
      cases hw : (env.writeResp n t).transportOk with
      | false =>
        exact Or.inr (Or.inr (Or.inl
          ⟨v, vs, rfl, rfl, processFam_write_fail d n t ip v vs env hg hw⟩))
      | true =>
        by_cases hs : (env.writeResp n t).status = 201
        · exact Or.inr (Or.inr (Or.inr (Or.inl
            ⟨v, vs, rfl, rfl, hs, processFam_write_201 d n t ip v vs env hg hw hs⟩)))
        · exact Or.inr (Or.inr (Or.inr (Or.inr
            ⟨v, vs, rfl, rfl, hs, processFam_write_non201 d n t ip v vs env hg hw hs⟩)))

/-- Every PUT a pair step emits carries the pair's addressing data, the
reader's URL, the fixed TTL 1800 and the discovered address as the only
value; it happens only when a non-empty record was read. -/
theorem processFam_writeCall_facts (d n t : String) (ipOpt : Option String)
    (env : Env) (c : WriteCall) (wr : WriteResponse)
    (hm : Event.writeCall c wr ∈ (processFam d n ipOpt t env).1) :
    c.name = n ∧ c.dnsType = t ∧ c.url = gandiRecordUrl d n t ∧
    c.rrset_ttl = 1800 ∧ wr = env.writeResp n t ∧
    readClass (env.readResp n t) = 2 ∧
    ∃ ip, ipOpt = some ip ∧ c.rrset_values = [ip] := by
  cases ipOpt with
  | none => simp [processFam_none] at hm
  | some ip =>
    rcases processFam_cases d n t ip env with
      ⟨hg, he⟩ | ⟨hg, he⟩ | ⟨v, vs, hg, _, he⟩ | ⟨v, vs, hg, _, _, he⟩ |
      ⟨v, vs, hg, _, _, he⟩ <;> rw [he] at hm <;> simp at hm
    · obtain ⟨rfl, rfl⟩ := hm
      exact ⟨rfl, rfl, rfl, rfl, rfl, by simp [readClass, hg], ip, rfl, rfl⟩
    · obtain ⟨rfl, rfl⟩ := hm
      exact ⟨rfl, rfl, rfl, rfl, rfl, by simp [readClass, hg], ip, rfl, rfl⟩
    · obtain ⟨rfl, rfl⟩ := hm
      exact ⟨rfl, rfl, rfl, rfl, rfl, by simp [readClass, hg], ip, rfl, rfl⟩

/-- Every event of a pair step concerns that pair's dns type. -/
theorem processFam_eventDnsType (d n t : String) (ipOpt : Option String)
    (env : Env) (e : Event) (he : e ∈ (processFam d n ipOpt t env).1) :
    eventDnsType e = t := by
  cases ipOpt with
  | none => simp [processFam_none] at he
  | some ip =>
    rcases processFam_cases d n t ip env with
      ⟨hg, hq⟩ | ⟨hg, hq⟩ | ⟨v, vs, hg, _, hq⟩ | ⟨v, vs, hg, _, _, hq⟩ |
      ⟨v, vs, hg, _, _, hq⟩
    · rw [hq] at he; simp at he; rcases he with rfl | rfl <;> rfl
    · rw [hq] at he; simp at he; rcases he with rfl | rfl <;> rfl
    · rw [hq] at he; simp at he; rcases he with rfl | rfl <;> rfl
    · rw [hq] at he; simp at he; rcases he with rfl | rfl <;> rfl
    · rw [hq] at he; simp at he; rcases he with rfl | rfl | rfl <;> rfl

/-- A pair step with a discovered address always issues the read. -/
theorem processFam_readCall_mem (d n t ip : String) (env : Env) :
    Event.readCall (gandiRecordUrl d n t) n t ∈
      (processFam d n (some ip) t env).1 := by
  rcases processFam_cases d n t ip env with
    ⟨hg, hq⟩ | ⟨hg, hq⟩ | ⟨v, vs, hg, _, hq⟩ | ⟨v, vs, hg, _, _, hq⟩ |
    ⟨v, vs, hg, _, _, hq⟩ <;> rw [hq] <;> simp

/-- The increment a completed pair step reports equals the number of its
writes acknowledged with 201. -/
theorem processFam_ok_count (d n t : String) (ipOpt : Option String)
    (env : Env) (evs : List Event) (k : Nat)
    (h : processFam d n ipOpt t env = (evs, Except.ok k)) :
    k = (evs.filter isChangedWrite).length := by
  cases ipOpt with
  | none =>
    rw [processFam_none] at h
    obtain ⟨rfl, rfl⟩ : [] = evs ∧ (0 : Nat) = k := by
      simpa [Prod.ext_iff] using h
    rfl
  | some ip =>
    rcases processFam_cases d n t ip env with
      ⟨hg, hq⟩ | ⟨hg, hq⟩ | ⟨v, vs, hg, hw, hq⟩ | ⟨v, vs, hg, hw, hs, hq⟩ |
      ⟨v, vs, hg, hw, hs, hq⟩ <;> rw [hq] at h <;>
      obtain ⟨h1, h2⟩ := Prod.mk.injEq .. ▸ h
    · cases h2; subst h1; simp [isChangedWrite]
    · cases h2; subst h1; simp [isChangedWrite]
    · cases h2
    · cases h2; subst h1; simp [isChangedWrite, hw, hs]
    · cases h2; subst h1
      have hb : ((env.writeResp n t).status == 201) = false := by
        simpa using hs
      simp [isChangedWrite, hw, hb]

/-- A completed pair step increments the counter by at most one. -/
theorem processFam_ok_le_one (d n t : String) (ipOpt : Option String)
    (env : Env) (evs : List Event) (k : Nat)
    (h : processFam d n ipOpt t env = (evs, Except.ok k)) : k ≤ 1 := by
  cases ipOpt with
  | none =>
    rw [processFam_none] at h
    obtain ⟨-, h2⟩ := Prod.mk.injEq .. ▸ h
    cases h2; exact Nat.zero_le 1
  | some ip =>
    rcases processFam_cases d n t ip env with
      ⟨hg, hq⟩ | ⟨hg, hq⟩ | ⟨v, vs, hg, hw, hq⟩ | ⟨v, vs, hg, hw, hs, hq⟩ |
      ⟨v, vs, hg, hw, hs, hq⟩ <;> rw [hq] at h <;>
      obtain ⟨-, h2⟩ := Prod.mk.injEq .. ▸ h <;> cases h2 <;> simp

/-! ### Decomposition of a record step and of the run -/

theorem processRecord_ok (d r : String) (i4 i6 : Option String) (env : Env)
    (evs : List Event) (k : Nat)
    (h : processRecord d r i4 i6 env = (evs, Except.ok k)) :
    ∃ eA kA eB kB,
      processFam d r i4 "A" env = (eA, Except.ok kA) ∧
      processFam d r i6 "AAAA" env = (eB, Except.ok kB) ∧
      evs = eA ++ eB ∧ k = kA + kB := by
  rcases hA : processFam d r i4 "A" env with ⟨eA, rA⟩
  rcases hB : processFam d r i6 "AAAA" env with ⟨eB, rB⟩
  simp only [processRecord, hA, hB] at h
  cases rA with
  | error ea => simp at h
  | ok kA =>
    cases rB with
    | error eb => simp at h
    | ok kB =>
      simp only [Prod.mk.injEq, Except.ok.injEq] at h
      exact ⟨eA, kA, eB, kB, rfl, rfl, h.1.symm, h.2.symm⟩

theorem runRecords_cons_ok (d r : String) (rs : List String)
    (i4 i6 : Option String) (env : Env) (evs : List Event) (k : Nat)
    (h : runRecords d (r :: rs) i4 i6 env = (evs, Except.ok k)) :
    ∃ e1 k1 e2 k2,
      processRecord d r i4 i6 env = (e1, Except.ok k1) ∧
      runRecords d rs i4 i6 env = (e2, Except.ok k2) ∧
      evs = e1 ++ e2 ∧ k = k1 + k2 := by
  rcases h1 : processRecord d r i4 i6 env with ⟨e1, r1⟩
  rcases h2 : runRecords d rs i4 i6 env with ⟨e2, r2⟩
  simp only [runRecords, h1, h2] at h
  cases r1 with
  | error ea => simp at h
  | ok k1 =>
    cases r2 with
    | error eb => simp at h
    | ok k2 =>
      simp only [Prod.mk.injEq, Except.ok.injEq] at h
      exact ⟨e1, k1, e2, k2, rfl, rfl, h.1.symm, h.2.symm⟩

theorem processRecord_mem (d r : String) (i4 i6 : Option String) (env : Env)
    (e : Event) (h : e ∈ (processRecord d r i4 i6 env).1) :
    e ∈ (processFam d r i4 "A" env).1 ∨
    e ∈ (processFam d r i6 "AAAA" env).1 := by
  rcases hA : processFam d r i4 "A" env with ⟨eA, rA⟩
  rcases hB : processFam d r i6 "AAAA" env with ⟨eB, rB⟩
  simp only [processRecord, hA, hB] at h
  cases rA with
  | error ea => simp at h ⊢; exact Or.inl h
  | ok kA =>
    cases rB with
    | error eb => simp at h ⊢; exact h
    | ok kB => simp at h ⊢; exact h

theorem runRecords_mem (d r : String) (rs : List String)
    (i4 i6 : Option String) (env : Env) (e : Event)
    (h : e ∈ (runRecords d (r :: rs) i4 i6 env).1) :
    e ∈ (processRecord d r i4 i6 env).1 ∨
    e ∈ (runRecords d rs i4 i6 env).1 := by
  rcases h1 : processRecord d r i4 i6 env with ⟨e1, r1⟩
  rcases h2 : runRecords d rs i4 i6 env with ⟨e2, r2⟩
  simp only [runRecords, h1, h2] at h
  cases r1 with
  | error ea => simp at h ⊢; exact Or.inl h
  | ok k1 =>
    cases r2 with
    | error eb => simp at h ⊢; exact h
    | ok k2 => simp at h ⊢; exact h

theorem processRecord_ok_count (d r : String) (i4 i6 : Option String)
    (env : Env) (evs : List Event) (k : Nat)
    (h : processRecord d r i4 i6 env = (evs, Except.ok k)) :
    k = (evs.filter isChangedWrite).length := by
  obtain ⟨eA, kA, eB, kB, hA, hB, rfl, rfl⟩ := processRecord_ok d r i4 i6 env evs k h
  rw [List.filter_append, List.length_append,
      ← processFam_ok_count d r "A" i4 env eA kA hA,
      ← processFam_ok_count d r "AAAA" i6 env eB kB hB]

theorem runRecords_ok_count (d : String) (rs : List String)
    (i4 i6 : Option String) (env : Env) (evs : List Event) (k : Nat)
    (h : runRecords d rs i4 i6 env = (evs, Except.ok k)) :
    k = (evs.filter isChangedWrite).length := by
  induction rs generalizing evs k with
  | nil =>
    simp only [runRecords, Prod.mk.injEq, Except.ok.injEq] at h
    obtain ⟨h1, h2⟩ := h
    subst h1; subst h2; rfl
  | cons r rest ih =>
    obtain ⟨e1, k1, e2, k2, h1, h2, rfl, rfl⟩ :=
      runRecords_cons_ok d r rest i4 i6 env evs k h
    rw [List.filter_append, List.length_append,
        ← processRecord_ok_count d r i4 i6 env e1 k1 h1, ← ih e2 k2 h2]

theorem processRecord_ok_le_two (d r : String) (i4 i6 : Option String)
    (env : Env) (evs : List Event) (k : Nat)
    (h : processRecord d r i4 i6 env = (evs, Except.ok k)) : k ≤ 2 := by
  obtain ⟨eA, kA, eB, kB, hA, hB, -, rfl⟩ := processRecord_ok d r i4 i6 env evs k h
  have := processFam_ok_le_one d r "A" i4 env eA kA hA
  have := processFam_ok_le_one d r "AAAA" i6 env eB kB hB
  omega

theorem runRecords_ok_le (d : String) (rs : List String)
    (i4 i6 : Option String) (env : Env) (evs : List Event) (k : Nat)
    (h : runRecords d rs i4 i6 env = (evs, Except.ok k)) :
    k ≤ 2 * rs.length := by
  induction rs generalizing evs k with
  | nil =>
    simp only [runRecords, Prod.mk.injEq, Except.ok.injEq] at h
    omega
  | cons r rest ih =>
    obtain ⟨e1, k1, e2, k2, h1, h2, -, rfl⟩ :=
      runRecords_cons_ok d r rest i4 i6 env evs k h
    have := processRecord_ok_le_two d r i4 i6 env e1 k1 h1
    have := ih e2 k2 h2
    simp only [List.length_cons]
    omega

/-! ### Run-level facts about issued writes -/

/-- Every PUT the run issues addresses a configured record through the
reader's URL, carries the fixed TTL 1800 and exactly the discovered
address of its family as the single value, and targets a record whose
read returned a non-empty value list. -/
theorem runRecords_writeCall_facts (d : String) (rs : List String)
    (i4 i6 : Option String) (env : Env) (c : WriteCall) (wr : WriteResponse)
    (hm : Event.writeCall c wr ∈ (runRecords d rs i4 i6 env).1) :
    c.name ∈ rs ∧ c.url = gandiRecordUrl d c.name c.dnsType ∧
    c.rrset_ttl = 1800 ∧ wr = env.writeResp c.name c.dnsType ∧
    readClass (env.readResp c.name c.dnsType) = 2 ∧
    ∃ ip, c.rrset_values = [ip] ∧
      ((c.dnsType = "A" ∧ i4 = some ip) ∨
       (c.dnsType = "AAAA" ∧ i6 = some ip)) := by
  revert hm
  induction rs with
  | nil => intro hm; simp [runRecords] at hm
  | cons r rest ih =>
    intro hm
    rcases runRecords_mem d r rest i4 i6 env _ hm with h | h
    · rcases processRecord_mem d r i4 i6 env _ h with hA | hB
      · obtain ⟨hn, ht, hu, httl, hwr, hcl, ip, hip, hv⟩ :=
          processFam_writeCall_facts d r "A" i4 env c wr hA
        rw [← hn, ← ht] at hu hwr hcl
        exact ⟨by rw [hn]; exact List.mem_cons_self _ _, hu, httl, hwr, hcl,
          ip, hv, Or.inl ⟨ht, hip⟩⟩
      · obtain ⟨hn, ht, hu, httl, hwr, hcl, ip, hip, hv⟩ :=
          processFam_writeCall_facts d r "AAAA" i6 env c wr hB
        rw [← hn, ← ht] at hu hwr hcl
        exact ⟨by rw [hn]; exact List.mem_cons_self _ _, hu, httl, hwr, hcl,
          ip, hv, Or.inr ⟨ht, hip⟩⟩
    · obtain ⟨hmem, rest2⟩ := ih h
      exact ⟨List.mem_cons_of_mem _ hmem, rest2⟩

/-- A trace containing no PUT for the pair (nm, t) filters to `[]`. -/
theorem filter_writeFor_eq_nil (l : List Event) (nm t : String)
    (h : ∀ c wr, Event.writeCall c wr ∈ l → ¬(c.name = nm ∧ c.dnsType = t)) :
    l.filter (isWriteFor nm t) = [] := by
  rw [List.filter_eq_nil_iff]
  intro e he
  cases e with
  | writeCall c wr => simpa [isWriteFor] using h c wr he
  | readCall u a b => simp [isWriteFor]
  | warnEmpty a b => simp [isWriteFor]
  | warnMissing a b => simp [isWriteFor]
  | warnStatus a b s => simp [isWriteFor]

/-- A completed pair step over a non-empty record contributes exactly one
PUT for its own pair. -/
theorem processFam_filter_self (d n t ip v : String) (vs : List String)
    (env : Env) (k : Nat)
    (hg : get_gandi_record (env.readResp n t) = some (v :: vs))
    (hok : (processFam d n (some ip) t env).2 = Except.ok k) :
    (processFam d n (some ip) t env).1.filter (isWriteFor n t) =
      [Event.writeCall
        (WriteCall.mk (gandiRecordUrl d n t) n t 1800 [ip])
        (env.writeResp n t)] := by
  rcases processFam_cases d n t ip env with
    ⟨hg2, hq⟩ | ⟨hg2, hq⟩ | ⟨v2, vs2, hg2, hw, hq⟩ | ⟨v2, vs2, hg2, hw, hs, hq⟩ |
    ⟨v2, vs2, hg2, hw, hs, hq⟩
  · simp [hg] at hg2
  · simp [hg] at hg2
  · rw [hq] at hok; simp at hok
  · rw [hq]; simp [isWriteFor]
  · rw [hq]; simp [isWriteFor]

/-! ### The run depends on the remote state only through `readClass` -/

theorem processFam_congr (d n : String) (ipOpt : Option String) (t : String)
    (env1 env2 : Env)
    (hr : readClass (env2.readResp n t) = readClass (env1.readResp n t))
    (hw : env2.writeResp n t = env1.writeResp n t) :
    processFam d n ipOpt t env2 = processFam d n ipOpt t env1 := by
  cases ipOpt with
  | none => rfl
  | some ip =>
    rcases hg1 : get_gandi_record (env1.readResp n t) with _ | vals1
    · rcases hg2 : get_gandi_record (env2.readResp n t) with _ | vals2
      · rw [processFam_missing d n t ip env1 hg1,
            processFam_missing d n t ip env2 hg2]
      · exfalso; cases vals2 <;> simp [readClass, hg1, hg2] at hr
    · cases vals1 with
      | nil =>
        rcases hg2 : get_gandi_record (env2.readResp n t) with _ | vals2
        · exfalso; simp [readClass, hg1, hg2] at hr
        · cases vals2 with
          | nil =>
            rw [processFam_empty d n t ip env1 hg1,
                processFam_empty d n t ip env2 hg2]
          | cons v2 vs2 => exfalso; simp [readClass, hg1, hg2] at hr
      | cons v1 vs1 =>
        rcases hg2 : get_gandi_record (env2.readResp n t) with _ | vals2
        · exfalso; simp [readClass, hg1, hg2] at hr
        · cases vals2 with
          | nil => exfalso; simp [readClass, hg1, hg2] at hr
          | cons v2 vs2 => simp [processFam, hg1, hg2, hw]

theorem runRecords_congr (d : String) (rs : List String)
    (i4 i6 : Option String) (env1 env2 : Env)
    (hr : ∀ n t, readClass (env2.readResp n t) = readClass (env1.readResp n t))
    (hw : ∀ n t, env2.writeResp n t = env1.writeResp n t) :
    runRecords d rs i4 i6 env2 = runRecords d rs i4 i6 env1 := by
  induction rs with
  | nil => rfl
  | cons r rest ih =>
    have hpr : processRecord d r i4 i6 env2 = processRecord d r i4 i6 env1 := by
      unfold processRecord
      rw [processFam_congr d r i4 "A" env1 env2 (hr r "A") (hw r "A"),
          processFam_congr d r i6 "AAAA" env1 env2 (hr r "AAAA") (hw r "AAAA")]
    simp only [runRecords, hpr, ih]

theorem readClass_mkReadResponse (x : String) (xs : List String) :
    readClass (mkReadResponse (x :: xs)) = 2 := by
  simp [readClass, mkReadResponse, get_gandi_record]

/-- Committing one event of a run that only wrote to records it had read
non-empty leaves every record's `readClass` (and the write responses)
unchanged. -/
theorem applyEvent_preserves (env : Env) (e : Event)
    (he : ∀ c r, e = Event.writeCall c r →
      readClass (env.readResp c.name c.dnsType) = 2 ∧ c.rrset_values ≠ []) :
    (∀ n t, readClass ((applyEvent env e).readResp n t) =
      readClass (env.readResp n t)) ∧
    (∀ n t, (applyEvent env e).writeResp n t = env.writeResp n t) := by
  cases e with
  | writeCall c r =>
    by_cases hc : (r.transportOk && r.status == 201) = true
    · obtain ⟨hcl, hnv⟩ := he c r rfl
      constructor
      · intro n t
        simp only [applyEvent, hc, if_true]
        by_cases hnt : n = c.name ∧ t = c.dnsType
        · obtain ⟨rfl, rfl⟩ := hnt
          rw [if_pos ⟨rfl, rfl⟩, hcl]
          rcases hv : c.rrset_values with _ | ⟨x, xs⟩
          · exact absurd hv hnv
          · exact readClass_mkReadResponse x xs
        · rw [if_neg hnt]
      · intro n t; simp [applyEvent, hc]
    · refine ⟨fun n t => ?_, fun n t => ?_⟩ <;> simp [applyEvent, hc]
  | readCall u a b => exact ⟨fun _ _ => rfl, fun _ _ => rfl⟩
  | warnEmpty a b => exact ⟨fun _ _ => rfl, fun _ _ => rfl⟩
  | warnMissing a b => exact ⟨fun _ _ => rfl, fun _ _ => rfl⟩
  | warnStatus a b s => exact ⟨fun _ _ => rfl, fun _ _ => rfl⟩

/-- Committing all events of such a run leaves every record's
`readClass` and the write responses unchanged. -/
theorem applyWrites_preserves (W : List Event) (env : Env)
    (hW : ∀ c r, Event.writeCall c r ∈ W →
      readClass (env.readResp c.name c.dnsType) = 2 ∧ c.rrset_values ≠ []) :
    (∀ n t, readClass ((applyWrites env W).readResp n t) =
      readClass (env.readResp n t)) ∧
    (∀ n t, (applyWrites env W).writeResp n t = env.writeResp n t) := by
  induction W generalizing env with
  | nil => exact ⟨fun _ _ => rfl, fun _ _ => rfl⟩
  | cons e es ih =>
    have h1 := applyEvent_preserves env e
      (fun c r hc => hW c r (by rw [← hc]; exact List.mem_cons_self _ _))
    have h2 : ∀ c r, Event.writeCall c r ∈ es →
        readClass ((applyEvent env e).readResp c.name c.dnsType) = 2 ∧
        c.rrset_values ≠ [] := by
      intro c r hm
      obtain ⟨ha, hb⟩ := hW c r (List.mem_cons_of_mem _ hm)
      exact ⟨(h1.1 c.name c.dnsType).trans ha, hb⟩
    obtain ⟨g1, g2⟩ := ih (applyEvent env e) h2
    exact ⟨fun n t => (g1 n t).trans (h1.1 n t),
           fun n t => (g2 n t).trans (h1.2 n t)⟩

/-- A pair step over a record read non-empty always issues the PUT with
the discovered address, whatever the stored values are. -/
theorem processFam_write_mem (d n t ip v : String) (vs : List String)
    (env : Env)
    (hg : get_gandi_record (env.readResp n t) = some (v :: vs)) :
    Event.writeCall
      (WriteCall.mk (gandiRecordUrl d n t) n t 1800 [ip])
      (env.writeResp n t) ∈ (processFam d n (some ip) t env).1 := by
  rcases processFam_cases d n t ip env with
    ⟨hg2, hq⟩ | ⟨hg2, hq⟩ | ⟨v2, vs2, hg2, hw, hq⟩ | ⟨v2, vs2, hg2, hw, hs, hq⟩ |
    ⟨v2, vs2, hg2, hw, hs, hq⟩
  · simp [hg] at hg2
  · simp [hg] at hg2
  · rw [hq]; simp
  · rw [hq]; simp
  · rw [hq]; simp

/-! ### Claim theorems -/

/-- C1 (counterexample): with record `home` remotely holding exactly the
discovered address `1.2.3.4`, the run still issues a write call for
(`home`, IPv4) — refuting the claim that an equal first value suppresses
the write. -/
theorem C1_counterexample :
    get_gandi_record (envEq.readResp "home" "A") = some ["1.2.3.4"] ∧
    Event.writeCall
      (WriteCall.mk (gandiRecordUrl "example.com" "home" "A") "home" "A"
        1800 ["1.2.3.4"])
      (WriteResponse.mk true 201)
      ∈ (runRecords "example.com" ["home"] (some "1.2.3.4") none envEq).1 := by
  decide

/-- C1 (amended): for every record and family with a discovered address
whose remote value sequence is non-empty, the reconciler issues the
write call — also when the first remote value equals the discovered
address, since `main` never compares the two values. -/
theorem C1_equal_value_still_written (d n t ip v : String) (vs : List String)
    (env : Env)
    (hg : get_gandi_record (env.readResp n t) = some (v :: vs)) :
    Event.writeCall
      (WriteCall.mk (gandiRecordUrl d n t) n t 1800 [ip])
      (env.writeResp n t) ∈ (processFam d n (some ip) t env).1 :=
  processFam_write_mem d n t ip v vs env hg

/-- C1 witness: the amended claim at the concrete run of the
counterexample environment, where the remote value already equals the
discovered address. -/
theorem C1_witness :
    Event.writeCall
      (WriteCall.mk (gandiRecordUrl "example.com" "home" "A") "home" "A"
        1800 ["1.2.3.4"])
      (envEq.writeResp "home" "A")
      ∈ (processFam "example.com" "home" (some "1.2.3.4") "A" envEq).1 :=
  C1_equal_value_still_written "example.com" "home" "A" "1.2.3.4" "1.2.3.4"
    [] envEq rfl

/-- C2 (counterexample): after a first run whose committed writes are
applied to the remote state, the second identical run still issues one
write call, not zero. -/
theorem C2_counterexample :
    ((runRecords "example.com" ["home"] (some "1.2.3.4") none
        (applyWrites envEq
          (runRecords "example.com" ["home"] (some "1.2.3.4") none
            envEq).1)).1.filter isWrite).length = 1 := by
  decide

/-- C2 (amended): rerunning the reconciliation on the remote state left
by the first run's committed writes, with unchanged discovered addresses,
reproduces the first run exactly — the same events, write calls and
changed-count — instead of yielding zero writes. -/
theorem C2_second_run_repeats (d : String) (rs : List String)
    (i4 i6 : Option String) (env : Env) :
    runRecords d rs i4 i6 (applyWrites env (runRecords d rs i4 i6 env).1) =
      runRecords d rs i4 i6 env := by
  have hW : ∀ c wr, Event.writeCall c wr ∈ (runRecords d rs i4 i6 env).1 →
      readClass (env.readResp c.name c.dnsType) = 2 ∧
      c.rrset_values ≠ [] := by
    intro c wr hm
    obtain ⟨-, -, -, -, hcl, ip, hv, -⟩ :=
      runRecords_writeCall_facts d rs i4 i6 env c wr hm
    exact ⟨hcl, by simp [hv]⟩
  obtain ⟨h1, h2⟩ :=
    applyWrites_preserves (runRecords d rs i4 i6 env).1 env hW
  exact runRecords_congr d rs i4 i6 env
    (applyWrites env (runRecords d rs i4 i6 env).1) h1 h2

/-- C3 (counterexample): with the read of record `a` failing (non-2xx)
and record `b` readable, the run does not abort: it completes with
`Except.ok 1` and still issues the write for the later record `b`. -/
theorem C3_counterexample :
    get_gandi_record (envC3.readResp "a" "A") = none ∧
    (runRecords "example.com" ["a", "b"] (some "1.2.3.4") none
      envC3).2 = Except.ok 1 ∧
    Event.writeCall
      (WriteCall.mk (gandiRecordUrl "example.com" "b" "A") "b" "A"
        1800 ["1.2.3.4"])
      (WriteResponse.mk true 201)
      ∈ (runRecords "example.com" ["a", "b"] (some "1.2.3.4") none
          envC3).1 :=
  ⟨rfl, rfl, by decide⟩

/-- C3 (amended): when the DNS read for a (record, family) pair fails
(non-2xx status or unreachable endpoint), the run logs a warning for
that pair, issues no write for it, and continues with the remaining
records unchanged — it does not abort. -/
theorem C3_read_failure_skips (d n : String) (rest : List String)
    (ip : String) (env : Env)
    (h : get_gandi_record (env.readResp n "A") = none) :
    runRecords d (n :: rest) (some ip) none env =
      ([Event.readCall (gandiRecordUrl d n "A") n "A",
        Event.warnMissing n "A"] ++
        (runRecords d rest (some ip) none env).1,
       (runRecords d rest (some ip) none env).2) := by
  have hA := processFam_missing d n "A" ip env h
  have hpr : processRecord d n (some ip) none env =
      ([Event.readCall (gandiRecordUrl d n "A") n "A",
        Event.warnMissing n "A"], Except.ok 0) := by
    simp [processRecord, hA, processFam_none]
  rcases h2 : runRecords d rest (some ip) none env with ⟨e2, r2⟩
  simp only [runRecords, hpr, h2]
  cases r2 <;> simp

/-- C3 witness: the amended claim at the counterexample environment:
the failed read of `a` prepends only its own two events to the
processing of `b`. -/
theorem C3_witness :
    runRecords "example.com" ["a", "b"] (some "1.2.3.4") none envC3 =
      ([Event.readCall (gandiRecordUrl "example.com" "a" "A") "a" "A",
        Event.warnMissing "a" "A"] ++
        (runRecords "example.com" ["b"] (some "1.2.3.4") none envC3).1,
       (runRecords "example.com" ["b"] (some "1.2.3.4") none envC3).2) :=
  C3_read_failure_skips "example.com" "a" ["b"] "1.2.3.4" envC3 rfl

/-- C5 (confirmed): a pair whose read succeeds with an empty value
sequence is skipped with a warning: the pair's events are exactly the
read and the warning, the counter increment is zero, and no write call
is issued, so no record is ever created. -/
theorem C5_empty_record_skipped (d n t ip : String) (env : Env)
    (h : get_gandi_record (env.readResp n t) = some []) :
    processFam d n (some ip) t env =
      ([Event.readCall (gandiRecordUrl d n t) n t, Event.warnEmpty n t],
       Except.ok 0) ∧
    ∀ c wr, Event.writeCall c wr ∉ (processFam d n (some ip) t env).1 := by
  have he := processFam_empty d n t ip env h
  refine ⟨he, ?_⟩
  intro c wr hm
  rw [he] at hm
  simp at hm

/-- C5 witness: the claim at a concrete environment whose records all
read as the empty value list. -/
theorem C5_witness :
    (processFam "example.com" "home" (some "1.2.3.4") "A" envEmpty =
      ([Event.readCall (gandiRecordUrl "example.com" "home" "A") "home" "A",
        Event.warnEmpty "home" "A"],
       Except.ok 0) ∧
    ∀ c wr, Event.writeCall c wr ∉
      (processFam "example.com" "home" (some "1.2.3.4") "A" envEmpty).1) :=
  C5_empty_record_skipped "example.com" "home" "A" "1.2.3.4" envEmpty rfl

/-- C6 (confirmed): a transport-level failure of the PUT propagates as a
fatal error: the run ends with `Except.error ()` right after the failing
pair's events, whatever records remain — no subsequent pair is
processed. -/
theorem C6_write_transport_error_aborts (d n : String) (rest : List String)
    (ip v : String) (vs : List String) (env : Env)
    (hg : get_gandi_record (env.readResp n "A") = some (v :: vs))
    (hw : (env.writeResp n "A").transportOk = false) :
    runRecords d (n :: rest) (some ip) none env =
      ([Event.readCall (gandiRecordUrl d n "A") n "A",
        Event.writeCall
          (WriteCall.mk (gandiRecordUrl d n "A") n "A" 1800 [ip])
          (env.writeResp n "A")],
       Except.error ()) := by
  have hA := processFam_write_fail d n "A" ip v vs env hg hw
  have hpr : processRecord d n (some ip) none env =
      ([Event.readCall (gandiRecordUrl d n "A") n "A",
        Event.writeCall
          (WriteCall.mk (gandiRecordUrl d n "A") n "A" 1800 [ip])
          (env.writeResp n "A")],
       Except.error ()) := by
    simp [processRecord, hA]
  simp [runRecords, hpr]

/-- C6 witness: the claim at a concrete environment whose PUTs fail at
transport level, with a further record `other` that is never reached. -/
theorem C6_witness :
    runRecords "example.com" ["home", "other"] (some "1.2.3.4") none
      envWfail =
      ([Event.readCall (gandiRecordUrl "example.com" "home" "A") "home" "A",
        Event.writeCall
          (WriteCall.mk (gandiRecordUrl "example.com" "home" "A") "home"
            "A" 1800 ["1.2.3.4"])
          (envWfail.writeResp "home" "A")],
       Except.error ()) :=
  C6_write_transport_error_aborts "example.com" "home" ["other"] "1.2.3.4"
    "9.9.9.9" [] envWfail rfl rfl

/-- C9 (confirmed): a 2xx discovery response whose JSON body lacks a
string `ip` field yields `Some ""` — the empty string counts as a
successfully discovered address — and the reconciler then issues write
calls that set any non-empty remote record to the empty string. -/
theorem C9_missing_ip_field_empty_string (r : IpResponse)
    (d n t : String) (env : Env) (v : String) (vs : List String)
    (h1 : r.transportOk = true) (h2 : r.statusSuccess = true)
    (h3 : r.jsonOk = true) (h4 : r.ipField = none)
    (hg : get_gandi_record (env.readResp n t) = some (v :: vs)) :
    get_public_ip r = some "" ∧
    Event.writeCall
      (WriteCall.mk (gandiRecordUrl d n t) n t 1800 [""])
      (env.writeResp n t)
      ∈ (processFam d n (get_public_ip r) t env).1 := by
  have hip : get_public_ip r = some "" := by
    simp [get_public_ip, h1, h2, h3, h4]
  refine ⟨hip, ?_⟩
  rw [hip]
  exact processFam_write_mem d n t "" v vs env hg

/-- C9 witness: the claim at a concrete discovery response with no `ip`
field and a record remotely holding `1.2.3.4`. -/
theorem C9_witness :
    get_public_ip (IpResponse.mk true true true none) = some "" ∧
    Event.writeCall
      (WriteCall.mk (gandiRecordUrl "example.com" "home" "A") "home" "A"
        1800 [""])
      (envEq.writeResp "home" "A")
      ∈ (processFam "example.com" "home"
          (get_public_ip (IpResponse.mk true true true none)) "A"
          envEq).1 :=
  C9_missing_ip_field_empty_string (IpResponse.mk true true true none)
    "example.com" "home" "A" envEq "1.2.3.4" [] rfl rfl rfl rfl rfl

/-- C4 (confirmed): the changed-count a completed run reports equals
exactly the number of write calls whose response status was 201; a write
acknowledged with another 2xx status such as 200 produces the warning
event, contributes zero to the count, and the pair step still ends with
`Except.ok`, so the run continues. -/
theorem C4_changed_count_is_201_writes :
    (∀ (d : String) (rs : List String) (i4 i6 : Option String) (env : Env)
        (evs : List Event) (k : Nat),
        runRecords d rs i4 i6 env = (evs, Except.ok k) →
        k = (evs.filter isChangedWrite).length) ∧
    (∀ (d n ip v : String) (vs : List String) (env : Env),
        get_gandi_record (env.readResp n "A") = some (v :: vs) →
        (env.writeResp n "A").transportOk = true →
        (env.writeResp n "A").status ≠ 201 →
        processFam d n (some ip) "A" env =
          ([Event.readCall (gandiRecordUrl d n "A") n "A",
            Event.writeCall
              (WriteCall.mk (gandiRecordUrl d n "A") n "A" 1800 [ip])
              (env.writeResp n "A"),
            Event.warnStatus n "A" ((env.writeResp n "A").status)],
           Except.ok 0)) := by
  constructor
  · exact runRecords_ok_count
  · intro d n ip v vs env hg hw hs
    exact processFam_write_non201 d n "A" ip v vs env hg hw hs

/-- C7 (confirmed): every write call the run issues is a PUT to the same
URL the reader used for that (record, family), with body TTL 1800 and a
value array holding exactly the family's discovered address; and in a
completed run over distinct record names, a pair whose remote record is
non-empty (in particular one whose first value differs from the
discovered address) receives exactly one such write call. -/
theorem C7_put_payload_and_uniqueness :
    (∀ (d : String) (rs : List String) (i4 i6 : Option String) (env : Env)
        (c : WriteCall) (wr : WriteResponse),
        Event.writeCall c wr ∈ (runRecords d rs i4 i6 env).1 →
        c.url = gandiRecordUrl d c.name c.dnsType ∧ c.rrset_ttl = 1800 ∧
        ∃ ip, c.rrset_values = [ip] ∧
          ((c.dnsType = "A" ∧ i4 = some ip) ∨
           (c.dnsType = "AAAA" ∧ i6 = some ip))) ∧
    (∀ (d : String) (rs : List String) (i6 : Option String) (env : Env)
        (name ip v : String) (vs : List String) (evs : List Event) (k : Nat),
        runRecords d rs (some ip) i6 env = (evs, Except.ok k) →
        rs.Nodup → name ∈ rs →
        get_gandi_record (env.readResp name "A") = some (v :: vs) →
        v ≠ ip →
        evs.filter (isWriteFor name "A") =
          [Event.writeCall
            (WriteCall.mk (gandiRecordUrl d name "A") name "A" 1800 [ip])
            (env.writeResp name "A")]) := by
  constructor
  · intro d rs i4 i6 env c wr hm
    obtain ⟨-, hu, httl, -, -, ip, hv, hfam⟩ :=
      runRecords_writeCall_facts d rs i4 i6 env c wr hm
    exact ⟨hu, httl, ip, hv, hfam⟩
  · intro d rs i6 env name ip v vs
    induction rs with
    | nil => intro evs k h hnd hmem hg hne; simp at hmem
    | cons r rest ih =>
      intro evs k h hnd hmem hg hne
      obtain ⟨e1, k1, e2, k2, h1, h2, rfl, -⟩ :=
        runRecords_cons_ok d r rest (some ip) i6 env evs k h
      rw [List.filter_append]
      rcases List.mem_cons.mp hmem with heq | hmem2
      · rw [← heq] at h1 hnd
        obtain ⟨eA, kA, eB, kB, hA, hB, rfl, -⟩ :=
          processRecord_ok d name (some ip) i6 env e1 k1 h1
        rw [List.filter_append]
        have hselfA := processFam_filter_self d name "A" ip v vs env kA hg
          (by rw [hA])
        have heA : (processFam d name (some ip) "A" env).1 = eA := by
          rw [hA]
        rw [heA] at hselfA
        have hB0 : eB.filter (isWriteFor name "A") = [] := by
          apply filter_writeFor_eq_nil
          intro c wr hmw
          have hmw2 : Event.writeCall c wr ∈
              (processFam d name i6 "AAAA" env).1 := by
            rw [hB]; exact hmw
          obtain ⟨-, ht, -, -, -, -, -⟩ :=
            processFam_writeCall_facts d name "AAAA" i6 env c wr hmw2
          intro hc
          rw [ht] at hc
          exact absurd hc.2 (by decide)
        have h20 : e2.filter (isWriteFor name "A") = [] := by
          apply filter_writeFor_eq_nil
          intro c wr hmw
          have hmw2 : Event.writeCall c wr ∈
              (runRecords d rest (some ip) i6 env).1 := by
            rw [h2]; exact hmw
          obtain ⟨hmemc, -, -, -, -, -⟩ :=
            runRecords_writeCall_facts d rest (some ip) i6 env c wr hmw2
          intro hc
          exact (List.nodup_cons.mp hnd).1 (hc.1 ▸ hmemc)
        rw [hselfA, hB0, h20]
        simp
      · have h10 : e1.filter (isWriteFor name "A") = [] := by
          apply filter_writeFor_eq_nil
          intro c wr hmw
          have hmw2 : Event.writeCall c wr ∈
              (processRecord d r (some ip) i6 env).1 := by
            rw [h1]; exact hmw
          intro hc
          have hrne : r ≠ name := by
            intro hrn
            exact (List.nodup_cons.mp hnd).1 (hrn ▸ hmem2)
          rcases processRecord_mem d r (some ip) i6 env _ hmw2 with hA | hB
          · obtain ⟨hn, -, -, -, -, -, -⟩ :=
              processFam_writeCall_facts d r "A" (some ip) env c wr hA
            exact hrne (hn ▸ hc.1)
          · obtain ⟨hn, -, -, -, -, -, -⟩ :=
              processFam_writeCall_facts d r "AAAA" i6 env c wr hB
            exact hrne (hn ▸ hc.1)
        rw [h10, ih e2 k2 h2 (List.nodup_cons.mp hnd).2 hmem2 hg hne]
        simp

/-- C8 (confirmed): a family with no discovered address is skipped
entirely (a run with no IPv4 produces only AAAA events and vice versa),
while in a completed run every configured record is still read for the
family that does have an address: neither family's discovery failure
blocks the other family for any record. -/
theorem C8_family_independence :
    (∀ (d : String) (rs : List String) (i6 : Option String) (env : Env)
        (e : Event), e ∈ (runRecords d rs none i6 env).1 →
        eventDnsType e = "AAAA") ∧
    (∀ (d : String) (rs : List String) (i4 : Option String) (env : Env)
        (e : Event), e ∈ (runRecords d rs i4 none env).1 →
        eventDnsType e = "A") ∧
    (∀ (d : String) (rs : List String) (ip : String) (env : Env)
        (evs : List Event) (k : Nat) (n : String),
        runRecords d rs none (some ip) env = (evs, Except.ok k) →
        n ∈ rs →
        Event.readCall (gandiRecordUrl d n "AAAA") n "AAAA" ∈ evs) := by
  refine ⟨?_, ?_, ?_⟩
  · intro d rs i6 env e
    induction rs with
    | nil => intro he; simp [runRecords] at he
    | cons r rest ih =>
      intro he
      rcases runRecords_mem d r rest none i6 env e he with h | h
      · rcases processRecord_mem d r none i6 env e h with hA | hB
        · rw [processFam_none] at hA; simp at hA
        · exact processFam_eventDnsType d r "AAAA" i6 env e hB
      · exact ih h
  · intro d rs i4 env e
    induction rs with
    | nil => intro he; simp [runRecords] at he
    | cons r rest ih =>
      intro he
      rcases runRecords_mem d r rest i4 none env e he with h | h
      · rcases processRecord_mem d r i4 none env e h with hA | hB
        · exact processFam_eventDnsType d r "A" i4 env e hA
        · rw [processFam_none] at hB; simp at hB
      · exact ih h
  · intro d rs ip env
    induction rs with
    | nil => intro evs k n h hn; simp at hn
    | cons r rest ih =>
      intro evs k n h hn
      obtain ⟨e1, k1, e2, k2, h1, h2, rfl, -⟩ :=
        runRecords_cons_ok d r rest none (some ip) env evs k h
      rcases List.mem_cons.mp hn with heq | hn2
      · rw [← heq] at h1
        obtain ⟨eA, kA, eB, kB, hA, hB, rfl, -⟩ :=
          processRecord_ok d n none (some ip) env e1 k1 h1
        refine List.mem_append.mpr (Or.inl (List.mem_append.mpr (Or.inr ?_)))
        have hmem := processFam_readCall_mem d n "AAAA" ip env
        have heB : (processFam d n (some ip) "AAAA" env).1 = eB := by
          rw [hB]
        rw [heB] at hmem
        exact hmem
      · exact List.mem_append.mpr (Or.inr (ih e2 k2 n h2 hn2))

/-- C10 (confirmed): the counter accumulates monotonically — every
completed run over `r :: rest` splits its count into the record's own
non-negative contribution plus the rest's — a completed pair step adds
at most one, and a completed run reports at most twice the number of
configured records. -/
theorem C10_counter_bounds :
    (∀ (d n t : String) (ipOpt : Option String) (env : Env)
        (evs : List Event) (k : Nat),
        processFam d n ipOpt t env = (evs, Except.ok k) → k ≤ 1) ∧
    (∀ (d r : String) (rest : List String) (i4 i6 : Option String)
        (env : Env) (evs : List Event) (k : Nat),
        runRecords d (r :: rest) i4 i6 env = (evs, Except.ok k) →
        ∃ k1 k2, (processRecord d r i4 i6 env).2 = Except.ok k1 ∧
          (runRecords d rest i4 i6 env).2 = Except.ok k2 ∧ k = k1 + k2) ∧
    (∀ (d : String) (rs : List String) (i4 i6 : Option String) (env : Env)
        (evs : List Event) (k : Nat),
        runRecords d rs i4 i6 env = (evs, Except.ok k) →
        k ≤ 2 * rs.length) := by
  refine ⟨?_, ?_, ?_⟩
  · intro d n t ipOpt env evs k h
    exact processFam_ok_le_one d n t ipOpt env evs k h
  · intro d r rest i4 i6 env evs k h
    obtain ⟨e1, k1, e2, k2, h1, h2, -, rfl⟩ :=
      runRecords_cons_ok d r rest i4 i6 env evs k h
    exact ⟨k1, k2, by rw [h1], by rw [h2], rfl⟩
  · intro d rs i4 i6 env evs k h
    exact runRecords_ok_le d rs i4 i6 env evs k h

end DdnsGandi
